import Mathlib

/-!
# Formal model of the WhatsApp scam-message detector

This file is a shallow embedding of the detection core in
`ml_system/scam_detector.py` (class `ScamDetector`): text normalization
(`preprocess_text`), URL extraction (`extract_urls`), heuristic URL risk
scoring (`analyze_url`), and the score-fusion logic of `predict`.

Modelling decisions:
* Strings are `List Char`; the regular-expression character classes
  (`\w`, `\s`, alphanumeric ASCII) are modelled on their ASCII semantics,
  matching Python on all ASCII inputs.  All concrete test inputs are ASCII.
* Python floats are modelled as exact rationals (`ℚ`); the fusion weights
  0.6 / 0.4 and thresholds 0.5 / 0.6 are exact decimals.
* Python `re.findall` is modelled by a left-to-right scanner that, at each
  position, either takes the (greedy, backtracking-faithful) match of the
  pattern starting there and resumes after it, or advances one character.
* `list(set(urls))` returns the distinct matches in an unspecified order;
  it is modelled by `List.dedup` (the claims about it are order-independent).
* The trained classifier is an external statistical model; `predict` takes
  its scam-class probability `p_scam` as a parameter (the class-probability
  pair is `(1 - p_scam, p_scam)`).  The trained/untrained lifecycle flag is
  an explicit boolean argument of `predictChecked` / `save_model`; file I/O
  (pickling) is elided, only the control flow of the error checks is kept.
-/

namespace ScamDetector

/-! ## Character classes (ASCII semantics of the Python regexes) -/

/-- Python `\s` on ASCII: space, tab, newline, carriage return,
vertical tab, form feed. -/
def isPySpace (c : Char) : Bool :=
  decide (c.toNat = 32 ∨ c.toNat = 9 ∨ c.toNat = 10 ∨ c.toNat = 13 ∨
    c.toNat = 11 ∨ c.toNat = 12)

/-- Python `\w` on ASCII: letters, digits and the underscore. -/
def isWordChar (c : Char) : Bool :=
  decide ((65 ≤ c.toNat ∧ c.toNat ≤ 90) ∨ (97 ≤ c.toNat ∧ c.toNat ≤ 122) ∨
    (48 ≤ c.toNat ∧ c.toNat ≤ 57) ∨ c.toNat = 95)

/-- ASCII letters and digits (`[a-zA-Z0-9]`). -/
def isAsciiAlphanum (c : Char) : Bool :=
  decide ((65 ≤ c.toNat ∧ c.toNat ≤ 90) ∨ (97 ≤ c.toNat ∧ c.toNat ≤ 122) ∨
    (48 ≤ c.toNat ∧ c.toNat ≤ 57))

/-- ASCII digits (`\d` on ASCII). -/
def isAsciiDigit (c : Char) : Bool :=
  decide (48 ≤ c.toNat ∧ c.toNat ≤ 57)

/-- Python `str.lower` on ASCII: map A-Z to a-z, leave the rest. -/
def pyLower (c : Char) : Char :=
  if 65 ≤ c.toNat ∧ c.toNat ≤ 90 then Char.ofNat (c.toNat + 32) else c

/-- Bool test for a needle occurring as a contiguous substring of the
haystack; models the Python `in` operator on strings. -/
def isSubstring (n : List Char) : List Char → Bool
  | [] => n.isEmpty
  | c :: t => n.isPrefixOf (c :: t) || isSubstring n t

/-! ## Text normalizer: `ScamDetector.preprocess_text`

Source (scam_detector.py, lines 43-48):
lowercase, then `re.sub(r'[^\w\s]', ' ', text)`, then
`re.sub(r'\s+', ' ', text).strip()`. -/

/-- Worker of `collapseSpaces`: the flag records whether the previous
character belonged to a whitespace run (whose single replacement space
has already been emitted). -/
def collapseAux : Bool → List Char → List Char
  | _, [] => []
  | inRun, c :: cs =>
    if isPySpace c then
      if inRun then collapseAux true cs else ' ' :: collapseAux true cs
    else c :: collapseAux false cs

/-- Replace each maximal run of whitespace by a single space
(the substitution `re.sub(r'\s+', ' ', ·)`). -/
def collapseSpaces (l : List Char) : List Char :=
  collapseAux false l

/-- Python `str.strip()`: drop leading and trailing whitespace. -/
def pyStrip (l : List Char) : List Char :=
  ((l.dropWhile isPySpace).reverse.dropWhile isPySpace).reverse

/-- Embedding of `ScamDetector.preprocess_text`: lowercase, replace each
non-word non-space character by a space, collapse whitespace runs, strip. -/
def preprocess_text (s : List Char) : List Char :=
  pyStrip (collapseSpaces
    ((s.map pyLower).map (fun c => if isWordChar c || isPySpace c then c else ' ')))

/-! ## URL extractor: `ScamDetector.extract_urls`

Source (scam_detector.py, lines 50-61): three `re.findall` passes whose
matches are concatenated and then deduplicated by `list(set(urls))`. -/

/-- Character class of the body of an explicit-scheme URL.  The union of
the regex alternatives `[a-zA-Z]`, `[0-9]`, `[$-_@.&+]` (a range from 0x24
to 0x5F), `[!*\\(\\),]` and the percent-encoded-byte branch collapses to:
`!`, the range 0x24-0x5F, and lowercase letters. -/
def isUrlBodyChar (c : Char) : Bool :=
  decide (c.toNat = 33 ∨ (36 ≤ c.toNat ∧ c.toNat ≤ 95) ∨
    (97 ≤ c.toNat ∧ c.toNat ≤ 122))

/-- Greedy match of `http[s]?://(?:...)+` at the head of the list.
Returns `some n` when the match has length `n + 1` (all matches are
non-empty, which drives the scanner's progress). -/
def matchHttpLen (l : List Char) : Option Nat :=
  if "http".toList.isPrefixOf l then
    let r := l.drop 4
    if "s://".toList.isPrefixOf r then
      let k := ((r.drop 4).takeWhile isUrlBodyChar).length
      if k = 0 then none else some (7 + k)
    else if "://".toList.isPrefixOf r then
      let k := ((r.drop 3).takeWhile isUrlBodyChar).length
      if k = 0 then none else some (6 + k)
    else none
  else none

/-- Label characters of the bare-domain pattern: `[a-zA-Z0-9-]`. -/
def isLabelChar (c : Char) : Bool :=
  decide ((65 ≤ c.toNat ∧ c.toNat ≤ 90) ∨ (97 ≤ c.toNat ∧ c.toNat ≤ 122) ∨
    (48 ≤ c.toNat ∧ c.toNat ≤ 57) ∨ c.toNat = 45)

/-- TLD allow-list of the bare-domain pattern, in the regex's
alternative order. -/
def simpleTlds : List (List Char) :=
  ["com", "org", "net", "in", "co", "io", "ai", "app", "xyz", "info",
   "biz", "tk", "ml", "ga", "cf", "gq"].map (fun s => s.toList)

/-- Does `[a-zA-Z0-9-]+\.(?:tld)` match at the head?  The `+` backtracks,
so a match exists iff some split point `k` within the leading label run
has a dot followed by one of the TLD alternatives. -/
def hasLabelTldSplit (l : List Char) : Bool :=
  let n := (l.takeWhile isLabelChar).length
  (List.range n).any fun j =>
    match l.drop (j + 1) with
    | c :: r => c == '.' && simpleTlds.any (fun t => t.isPrefixOf r)
    | [] => false

/-- Greedy match of the bare-domain pattern
`(?:www\.|[a-zA-Z0-9-]+\.(?:tlds))[^\s]*` at the head.  Whenever the head
alternative matches, the trailing `[^\s]*` extends the match to the first
whitespace, so the full match is the maximal non-whitespace run. -/
def matchSimpleLen (l : List Char) : Option Nat :=
  if "www.".toList.isPrefixOf l || hasLabelTldSplit l then
    some ((l.takeWhile (fun c => !isPySpace c)).length - 1)
  else none

/-- Shortener hosts of the third extraction pattern, in alternative
order (this list, unlike the scoring list in `analyze_url`, contains
`ow.ly` and the full `tinyurl.com`). -/
def shortMatchHosts : List (List Char) :=
  ["bit.ly", "tinyurl.com", "goo.gl", "ow.ly", "t.co", "cutt.ly"].map
    (fun s => s.toList)

/-- Match one shortener alternative followed by `/` and `[a-zA-Z0-9]+`. -/
def matchShortAt (a : List Char) (l : List Char) : Option Nat :=
  if a.isPrefixOf l then
    match l.drop a.length with
    | c :: r =>
      if c == '/' then
        let k := (r.takeWhile isAsciiAlphanum).length
        if k = 0 then none else some (a.length + k)
      else none
    | [] => none
  else none

/-- Greedy match of the shortener pattern at the head: the first
alternative that completes a match wins. -/
def matchShortLen (l : List Char) : Option Nat :=
  shortMatchHosts.foldr
    (fun a acc =>
      match matchShortAt a l with
      | some n => some n
      | none => acc)
    none

/-- Fuelled worker of the `re.findall` driver.  Each step consumes at
least one character, so fuel equal to the input length is enough; the
fuel only makes the recursion structural. -/
def scanAux (f : List Char → Option Nat) : ℕ → List Char → List (List Char)
  | 0, _ => []
  | _ + 1, [] => []
  | fuel + 1, c :: cs =>
    match f (c :: cs) with
    | some n => ((c :: cs).take (n + 1)) :: scanAux f fuel (cs.drop n)
    | none => scanAux f fuel cs

/-- Left-to-right non-overlapping scanner: the `re.findall` driver.
At each position, if the pattern matches (with length `n + 1`), record
the match and resume after it; otherwise move one character right. -/
def scan (f : List Char → Option Nat) (l : List Char) : List (List Char) :=
  scanAux f l.length l

/-- All matches of the three patterns, concatenated in source order
(explicit-scheme, bare-domain, shortener). -/
def rawUrlMatches (text : List Char) : List (List Char) :=
  scan matchHttpLen text ++ scan matchSimpleLen text ++ scan matchShortLen text

/-- Embedding of `ScamDetector.extract_urls`: the three findall passes
followed by `list(set(urls))`, modelled as deduplication. -/
def extract_urls (text : List Char) : List (List Char) :=
  (rawUrlMatches text).dedup

/-! ## URL risk scorer: `ScamDetector.analyze_url`

Source (scam_detector.py, lines 63-117): sequential additive rules over
the lowercased URL, final score clamped to `[0, 100]`,
`is_suspicious = score ≥ 40`. -/

/-- Reason labels recorded by `analyze_url`, one constructor per rule
(the keyword rule records which keyword was found). -/
inductive UrlReason
  | containsKeyword (k : List Char)
  | shortenedUrl
  | atSymbol
  | multipleSlashes
  | suspiciousTld
  | ipAddressInUrl
  | longUrl
  | multipleHyphens
deriving DecidableEq, Repr

/-- Result record of `analyze_url`. -/
structure UrlRiskAssessment where
  url : List Char
  suspicion_score : ℕ
  is_suspicious : Bool
  reasons : List UrlReason
deriving DecidableEq, Repr

/-- The lowercased URL (`url.lower()`). -/
def urlLower (u : List Char) : List Char := u.map pyLower

/-- The 18 phishing keywords, in source order. -/
def phishingKeywords : List (List Char) :=
  ["verify", "login", "account", "secure", "update", "confirm",
   "bank", "paypal", "amazon", "suspended", "urgent", "click",
   "prize", "winner", "free", "claim", "limited", "offer"].map
    (fun s => s.toList)

/-- Keywords found as substrings of the lowercased URL, in source order. -/
def keywordHits (u : List Char) : List (List Char) :=
  phishingKeywords.filter fun k => isSubstring k (urlLower u)

/-- Shortener substrings checked by `analyze_url` (line 81).  Note this
list differs from the extraction pattern: it has `tinyurl` (not
`tinyurl.com`) and does not contain `ow.ly`. -/
def analyzeShorteners : List (List Char) :=
  ["bit.ly", "tinyurl", "goo.gl", "t.co", "cutt.ly"].map (fun s => s.toList)

/-- Shortener rule condition: some shortener substring occurs in the
lowercased URL. -/
def shortenerHit (u : List Char) : Bool :=
  analyzeShorteners.any fun s => isSubstring s (urlLower u)

/-- At-symbol rule condition: `'@' in url`. -/
def atSymbolHit (u : List Char) : Bool :=
  u.any fun c => c == '@'

/-- Number of non-overlapping occurrences of `//` (Python
`url.count('//')`, scanning left to right). -/
def countDoubleSlash : List Char → ℕ
  | c1 :: c2 :: r =>
    if c1 == '/' && c2 == '/' then 1 + countDoubleSlash r
    else countDoubleSlash (c2 :: r)
  | _ => 0

/-- Multiple-slashes rule condition: `url.count('//') > 1`. -/
def multiSlashHit (u : List Char) : Bool :=
  decide (1 < countDoubleSlash u)

/-- Suspicious TLD substrings, in source order. -/
def suspiciousTlds : List (List Char) :=
  [".tk", ".ml", ".ga", ".cf", ".gq", ".xyz", ".top"].map (fun s => s.toList)

/-- Suspicious-TLD rule condition. -/
def tldHit (u : List Char) : Bool :=
  suspiciousTlds.any fun t => isSubstring t (urlLower u)

/-- Consume exactly `k` ASCII digits, returning the rest. -/
def takeDigits : ℕ → List Char → Option (List Char)
  | 0, l => some l
  | k + 1, c :: r => if isAsciiDigit c then takeDigits k r else none
  | _ + 1, [] => none

/-- Consume a literal dot. -/
def dotThen : List Char → Option (List Char)
  | c :: r => if c == '.' then some r else none
  | [] => none

/-- Match `\d{a}\.\d{b}\.\d{c}\.\d{d}` at the head. -/
def ipMatchAt (a b c d : ℕ) (l : List Char) : Bool :=
  ((((((takeDigits a l).bind dotThen).bind (takeDigits b)).bind
    dotThen).bind (takeDigits c)).bind dotThen).bind (takeDigits d)
    |>.isSome

/-- Match of `\d{1,3}\.\d{1,3}\.\d{1,3}\.\d{1,3}` at the head: the
bounded quantifiers backtrack, so a match exists iff some choice of the
four group lengths succeeds. -/
def ipAt (l : List Char) : Bool :=
  [1, 2, 3].any fun a => [1, 2, 3].any fun b => [1, 2, 3].any fun c =>
    [1, 2, 3].any fun d => ipMatchAt a b c d l

/-- IP rule condition: `re.search` of the dotted-quad pattern, i.e. a
match starting at some position. -/
def hasIpPattern : List Char → Bool
  | [] => false
  | c :: t => ipAt (c :: t) || hasIpPattern t

/-- Long-URL rule condition: `len(url) > 100`. -/
def longHit (u : List Char) : Bool :=
  decide (100 < u.length)

/-- Hyphen rule condition: `url_lower.count('-') > 3`. -/
def hyphenHit (u : List Char) : Bool :=
  decide (3 < (urlLower u).count '-')

/-- The additive suspicion score before clamping: the sequential
`suspicion_score += ...` updates of lines 76-108, in source order. -/
def rawSuspicionScore (u : List Char) : ℕ :=
  15 * (keywordHits u).length
  + (if shortenerHit u then 20 else 0)
  + (if atSymbolHit u then 25 else 0)
  + (if multiSlashHit u then 20 else 0)
  + (if tldHit u then 15 else 0)
  + (if hasIpPattern u then 20 else 0)
  + (if longHit u then 10 else 0)
  + (if hyphenHit u then 10 else 0)

/-- Reasons recorded by the fired rules, in evaluation order. -/
def urlReasons (u : List Char) : List UrlReason :=
  ((keywordHits u).map UrlReason.containsKeyword)
  ++ (if shortenerHit u then [UrlReason.shortenedUrl] else [])
  ++ (if atSymbolHit u then [UrlReason.atSymbol] else [])
  ++ (if multiSlashHit u then [UrlReason.multipleSlashes] else [])
  ++ (if tldHit u then [UrlReason.suspiciousTld] else [])
  ++ (if hasIpPattern u then [UrlReason.ipAddressInUrl] else [])
  ++ (if longHit u then [UrlReason.longUrl] else [])
  ++ (if hyphenHit u then [UrlReason.multipleHyphens] else [])

/-- Embedding of `ScamDetector.analyze_url`: clamp the additive score to
`[0, 100]`; suspicious iff the clamped score is at least 40. -/
def analyze_url (url : List Char) : UrlRiskAssessment :=
  let score := min (rawSuspicionScore url) 100
  { url := url
    suspicion_score := score
    is_suspicious := decide (40 ≤ score)
    reasons := urlReasons url }

/-! ## Fusion engine: `ScamDetector.predict`

Source (scam_detector.py, lines 160-208).  The classifier's scam-class
probability is the parameter `p_scam`. -/

/-- Explanation labels of the final result (line 188-194). -/
inductive Reason
  | highTextScamProbability
  | containsSuspiciousUrls
  | messageAppearsSafe
deriving DecidableEq, Repr

/-- Verdict label. -/
inductive Verdict
  | SCAM
  | SAFE
deriving DecidableEq, Repr

/-- The full detection record returned by `predict`. -/
structure DetectionResult where
  text : List Char
  is_scam : Bool
  confidence : ℚ
  text_scam_probability : ℚ
  text_safe_probability : ℚ
  urls_found : ℕ
  url_analyses : List UrlRiskAssessment
  has_suspicious_urls : Bool
  max_url_suspicion_score : ℕ
  reasons : List Reason
  verdict : Verdict
deriving DecidableEq, Repr

/-- Per-URL assessments (line 172). -/
def urlAnalyses (text : List Char) : List UrlRiskAssessment :=
  (extract_urls text).map analyze_url

/-- Maximum suspicion score over the assessments, 0 when none
(line 174, `max(..., default=0)`). -/
def maxUrlScore (text : List Char) : ℕ :=
  ((urlAnalyses text).map (fun a => a.suspicion_score)).foldl max 0

/-- Whether any assessment is suspicious (line 175). -/
def hasSuspiciousUrls (text : List Char) : Bool :=
  (urlAnalyses text).any fun a => a.is_suspicious

/-- The fused score (lines 177-180):
`text_scam_prob * 0.6 + (max_url_score / 100) * 0.4`. -/
def combinedScore (p_scam : ℚ) (text : List Char) : ℚ :=
  p_scam * (6 / 10) + ((maxUrlScore text : ℚ) / 100) * (4 / 10)

/-- Preliminary prediction (line 182): 1 iff the combined score is at
least 0.5. -/
def prelimPrediction (p_scam : ℚ) (text : List Char) : ℕ :=
  if (1 : ℚ) / 2 ≤ combinedScore p_scam text then 1 else 0

/-- The override condition of line 184: suspicious URLs present while the
preliminary verdict is benign. -/
def overrideFires (p_scam : ℚ) (text : List Char) : Bool :=
  hasSuspiciousUrls text && (prelimPrediction p_scam text == 0)

/-- Final prediction after the override (lines 184-185). -/
def finalPrediction (p_scam : ℚ) (text : List Char) : ℕ :=
  if overrideFires p_scam text then 1 else prelimPrediction p_scam text

/-- Final confidence after the override (line 186): raised to at least
0.6 only when the override fires. -/
def finalConfidence (p_scam : ℚ) (text : List Char) : ℚ :=
  if overrideFires p_scam text then max (combinedScore p_scam text) (6 / 10)
  else combinedScore p_scam text

/-- Reasons of the final result (lines 188-194), in source order. -/
def predictReasons (p_scam : ℚ) (text : List Char) : List Reason :=
  (if (6 : ℚ) / 10 < p_scam then [Reason.highTextScamProbability] else [])
  ++ (if hasSuspiciousUrls text then [Reason.containsSuspiciousUrls] else [])
  ++ (if finalPrediction p_scam text = 0 then [Reason.messageAppearsSafe] else [])

/-- Embedding of `ScamDetector.predict` (lines 165-208), with the
classifier output abstracted as `p_scam`. -/
def predict (p_scam : ℚ) (text : List Char) : DetectionResult :=
  { text := text
    is_scam := decide (finalPrediction p_scam text = 1)
    confidence := finalConfidence p_scam text
    text_scam_probability := p_scam
    text_safe_probability := 1 - p_scam
    urls_found := (extract_urls text).length
    url_analyses := urlAnalyses text
    has_suspicious_urls := hasSuspiciousUrls text
    max_url_suspicion_score := maxUrlScore text
    reasons := predictReasons p_scam text
    verdict := if finalPrediction p_scam text = 1 then Verdict.SCAM else Verdict.SAFE }

/-- Error conditions of the lifecycle checks. -/
inductive DetectorError
  | notTrained
  | modelNotFound
deriving DecidableEq, Repr

/-- The guarded entry point of `predict` (lines 160-163): reject when the
model is untrained, otherwise produce the detection result. -/
def predictChecked (is_trained : Bool) (p_scam : ℚ) (text : List Char) :
    Except DetectorError DetectionResult :=
  if is_trained then Except.ok (predict p_scam text)
  else Except.error DetectorError.notTrained

/-- Control flow of `ScamDetector.save_model` (lines 210-221): it pickles
the vectorizer and classifier unconditionally — there is no
`is_trained` check, so it never raises a not-trained error. -/
def save_model (_is_trained : Bool) : Except DetectorError Unit :=
  Except.ok ()

/-! ## Spec-side comparison definitions

These definitions transcribe formulas from the specification's wording;
they exist to be compared against the source-derived definitions above. -/

/-- The shortener host set named by the specification for the scoring
rule: `{bit.ly, tinyurl.com, goo.gl, ow.ly, t.co, cutt.ly}`.  To be
compared against `analyzeShorteners`, the set the code actually checks. -/
def claimedShortenerHosts : List (List Char) :=
  ["bit.ly", "tinyurl.com", "goo.gl", "ow.ly", "t.co", "cutt.ly"].map
    (fun s => s.toList)

/-- The claimed shortener condition: some host of the claimed set occurs
in the lowercased URL. -/
def claimedShortenerHit (u : List Char) : Bool :=
  claimedShortenerHosts.any fun s => isSubstring s (urlLower u)

/-- Suspicion score contributed by every rule except the shortener rule,
per the specification's additive description of `analyze_url`. -/
def rawScoreWithoutShortener (u : List Char) : ℕ :=
  15 * (keywordHits u).length
  + (if atSymbolHit u then 25 else 0)
  + (if multiSlashHit u then 20 else 0)
  + (if tldHit u then 15 else 0)
  + (if hasIpPattern u then 20 else 0)
  + (if longHit u then 10 else 0)
  + (if hyphenHit u then 10 else 0)

/-- Characters allowed in a normalized text according to the code:
lowercase ASCII letters, ASCII digits, the underscore, and the space. -/
def isNormalizedChar (c : Char) : Bool :=
  decide ((97 ≤ c.toNat ∧ c.toNat ≤ 122) ∨ (48 ≤ c.toNat ∧ c.toNat ≤ 57) ∨
    c.toNat = 95 ∨ c.toNat = 32)

/-- Characters allowed in a normalized text according to the claim:
lowercase ASCII letters, ASCII digits, and the space — no underscore. -/
def isClaimNormalizedChar (c : Char) : Bool :=
  decide ((97 ≤ c.toNat ∧ c.toNat ≤ 122) ∨ (48 ≤ c.toNat ∧ c.toNat ≤ 57) ∨
    c.toNat = 32)

/-- No two adjacent characters are both spaces. -/
def noTwoSpaces (a b : Char) : Prop :=
  ¬(a = ' ' ∧ b = ' ')

/-! ## Theorems -/

/-- Claim C6 (confirmed).  For every URL string `u`, `analyze_url u`
returns a `suspicion_score` between 0 and 100 (the lower bound is
inherent in the type `ℕ`), and `is_suspicious` holds exactly when the
clamped score is at least 40. -/
theorem analyze_url_score_clamped_and_flag (u : List Char) :
    (analyze_url u).suspicion_score ≤ 100 ∧
    (analyze_url u).is_suspicious = decide (40 ≤ (analyze_url u).suspicion_score) :=
  ⟨Nat.min_le_right _ _, rfl⟩

theorem count_le_one_of_nodup {l : List (List Char)} (h : l.Nodup) (u : List Char) :
    l.count u ≤ 1 := by
  induction l with
  | nil => simp
  | cons a t ih =>
    rw [List.nodup_cons] at h
    rw [List.count_cons]
    by_cases hu : u = a
    · subst hu
      have : t.count u = 0 := List.count_eq_zero.mpr h.1
      simp [this]
    · have := ih h.2
      have hau : ¬(a = u) := fun hh => hu hh.symm
      simp [hu, hau]
      omega

/-- Claim C8 (confirmed).  `extract_urls` deduplicates: its output has no
duplicates, it contains exactly the strings matched by the three
patterns (so repeating a URL substring in the text cannot add it twice),
and every URL occurs at most once. -/
theorem extract_urls_dedup (s : List Char) :
    (extract_urls s).Nodup ∧
    (∀ u, u ∈ extract_urls s ↔ u ∈ rawUrlMatches s) ∧
    (∀ u, (extract_urls s).count u ≤ 1) :=
  ⟨List.nodup_dedup _, fun _ => List.mem_dedup,
    fun u => count_le_one_of_nodup (List.nodup_dedup _) u⟩

/-- Claim C9, counterexample.  The claim asserts that `save` while
untrained is rejected with the not-trained error; in the code
`save_model` has no `is_trained` check and succeeds unconditionally. -/
theorem save_model_untrained_not_rejected :
    save_model false = Except.ok () ∧
    save_model false ≠ Except.error DetectorError.notTrained :=
  ⟨rfl, by simp [save_model]⟩

/-- Claim C9 (amended).  `predict` in the untrained state fails with the
not-trained error and never in the trained state; `save_model`, however,
performs no trained-state check and succeeds even while untrained. -/
theorem not_trained_lifecycle (p : ℚ) (text : List Char) (b : Bool) :
    predictChecked false p text = Except.error DetectorError.notTrained ∧
    predictChecked true p text = Except.ok (predict p text) ∧
    save_model b = Except.ok () :=
  ⟨rfl, rfl, rfl⟩

/-- Claim C4, counterexample.  `ow.ly/abc` contains the claimed shortener
host `ow.ly`, yet `analyze_url` records no shortened-URL reason and
scores it 0: the code's shortener list lacks `ow.ly`. -/
theorem owly_url_scores_zero :
    claimedShortenerHit "ow.ly/abc".toList = true ∧
    UrlReason.shortenedUrl ∉ (analyze_url "ow.ly/abc".toList).reasons ∧
    (analyze_url "ow.ly/abc".toList).suspicion_score = 0 := by
  decide

/-- Claim C4 (amended).  The shortener rule fires exactly when one of the
code's shortener substrings `{bit.ly, tinyurl, goo.gl, t.co, cutt.ly}`
occurs in the lowercased URL (so `tinyurl.com` URLs trigger it but
`ow.ly` URLs do not); when it fires it contributes exactly +20 to the
additive score and records the shortened-URL reason. -/
theorem shortener_rule_exact (u : List Char) :
    (UrlReason.shortenedUrl ∈ (analyze_url u).reasons ↔ shortenerHit u = true) ∧
    rawSuspicionScore u =
      rawScoreWithoutShortener u + (if shortenerHit u then 20 else 0) := by
  constructor
  · show UrlReason.shortenedUrl ∈ urlReasons u ↔ _
    unfold urlReasons
    cases h : shortenerHit u <;>
      cases h2 : atSymbolHit u <;> cases h3 : multiSlashHit u <;>
      cases h4 : tldHit u <;> cases h5 : hasIpPattern u <;>
      cases h6 : longHit u <;> cases h7 : hyphenHit u <;>
      simp
  · unfold rawSuspicionScore rawScoreWithoutShortener
    omega

theorem rawScore_eq_zero_iff (u : List Char) :
    rawSuspicionScore u = 0 ↔ urlReasons u = [] := by
  unfold rawSuspicionScore urlReasons
  cases hk : keywordHits u <;>
    cases h1 : shortenerHit u <;> cases h2 : atSymbolHit u <;>
    cases h3 : multiSlashHit u <;> cases h4 : tldHit u <;>
    cases h5 : hasIpPattern u <;> cases h6 : longHit u <;>
    cases h7 : hyphenHit u <;> simp

/-- Claim C10 (confirmed).  The reasons list of `analyze_url` is
non-empty exactly when the suspicion score is positive; in particular a
suspicious URL always carries at least one triggered-rule reason. -/
theorem analyze_url_reasons_iff_positive_score (u : List Char) :
    ((analyze_url u).reasons = [] ↔ (analyze_url u).suspicion_score = 0) ∧
    ((analyze_url u).is_suspicious = true → (analyze_url u).reasons ≠ []) := by
  have hiff := rawScore_eq_zero_iff u
  constructor
  · show urlReasons u = [] ↔ min (rawSuspicionScore u) 100 = 0
    constructor
    · intro h
      have h0 := hiff.mpr h
      omega
    · intro h
      apply hiff.mp
      omega
  · intro h hnil
    have h40 : 40 ≤ min (rawSuspicionScore u) 100 := of_decide_eq_true h
    have h0 : rawSuspicionScore u = 0 := hiff.mpr hnil
    omega

theorem analyze_url_reasons_iff_positive_score_witness :
    (analyze_url "bit.ly/verifylogin".toList).is_suspicious = true ∧
    (analyze_url "bit.ly/verifylogin".toList).reasons ≠ [] := by
  have h : (analyze_url "bit.ly/verifylogin".toList).is_suspicious = true := by decide
  exact ⟨h, (analyze_url_reasons_iff_positive_score _).2 h⟩

/-- Claim C5 (confirmed).  `predict` fuses the signals as
`combined = 0.6 * p_scam + 0.4 * (max_url_score / 100)` with
`max_url_score` the maximum suspicion score over the returned analyses
(0 when none); the preliminary verdict is scam exactly when
`combined ≥ 0.5`, and the returned verdict and confidence differ from
the preliminary ones only through the suspicious-URL override. -/
theorem predict_fusion_formula (p : ℚ) (text : List Char) :
    combinedScore p text =
      (6 : ℚ)/10 * p + (4 : ℚ)/10 * ((maxUrlScore text : ℚ) / 100) ∧
    maxUrlScore text =
      (((predict p text).url_analyses).map (fun a => a.suspicion_score)).foldl max 0 ∧
    (prelimPrediction p text = 1 ↔ (1 : ℚ)/2 ≤ combinedScore p text) ∧
    (predict p text).is_scam =
      (decide ((1 : ℚ)/2 ≤ combinedScore p text) || hasSuspiciousUrls text) ∧
    (predict p text).confidence =
      (if hasSuspiciousUrls text && !(decide ((1 : ℚ)/2 ≤ combinedScore p text))
       then max (combinedScore p text) ((6 : ℚ)/10) else combinedScore p text) := by
  refine ⟨by unfold combinedScore; ring, rfl, ?_, ?_, ?_⟩
  · unfold prelimPrediction
    split <;> simp_all
  · show decide (finalPrediction p text = 1) = _
    unfold finalPrediction overrideFires prelimPrediction
    by_cases hc : (1 : ℚ)/2 ≤ combinedScore p text <;>
      cases hs : hasSuspiciousUrls text <;> simp [hc, hs]
  · show finalConfidence p text = _
    unfold finalConfidence overrideFires prelimPrediction
    by_cases hc : (1 : ℚ)/2 ≤ combinedScore p text <;>
      cases hs : hasSuspiciousUrls text <;> simp [hc, hs]

/-- Claim C1, counterexample.  With `p_scam = 1/2` and the single URL
`bit.ly/verifylogin` (suspicion score 50, suspicious), the combined
score is exactly 0.5, so the preliminary verdict is already scam and the
override never raises the confidence: the result has a suspicious URL
analysis and `is_scam`, but its confidence is 0.5 < 0.6. -/
theorem suspicious_url_confidence_below_point_six :
    ((predict (1/2) "bit.ly/verifylogin".toList).url_analyses.any
      fun a => a.is_suspicious) = true ∧
    (predict (1/2) "bit.ly/verifylogin".toList).is_scam = true ∧
    (predict (1/2) "bit.ly/verifylogin".toList).confidence < (6 : ℚ)/10 := by
  have hm : maxUrlScore "bit.ly/verifylogin".toList = 50 := by decide
  have hs : hasSuspiciousUrls "bit.ly/verifylogin".toList = true := by decide
  have hc : combinedScore (1/2) "bit.ly/verifylogin".toList = 1/2 := by
    unfold combinedScore
    rw [hm]
    norm_num
  refine ⟨hs, ?_, ?_⟩
  · show decide (finalPrediction (1/2) "bit.ly/verifylogin".toList = 1) = true
    unfold finalPrediction overrideFires prelimPrediction
    rw [hc]
    norm_num
  · show finalConfidence (1/2) "bit.ly/verifylogin".toList < (6 : ℚ)/10
    unfold finalConfidence overrideFires prelimPrediction
    rw [hc]
    norm_num

/-- Claim C1 (amended).  If any returned URL analysis is suspicious then
the final verdict is scam and the confidence is at least 0.5; the 0.6
lower bound claimed originally is guaranteed only when the preliminary
combined score was below 0.5 (i.e. when the override actually fires). -/
theorem suspicious_urls_force_scam (p : ℚ) (text : List Char)
    (h : ((predict p text).url_analyses.any fun a => a.is_suspicious) = true) :
    (predict p text).is_scam = true ∧
    (1 : ℚ)/2 ≤ (predict p text).confidence ∧
    (combinedScore p text < 1/2 → (6 : ℚ)/10 ≤ (predict p text).confidence) := by
  have hs : hasSuspiciousUrls text = true := h
  refine ⟨?_, ?_, ?_⟩
  · show decide (finalPrediction p text = 1) = true
    unfold finalPrediction overrideFires prelimPrediction
    rw [hs]
    by_cases hc : (1 : ℚ)/2 ≤ combinedScore p text
    · rw [if_pos hc]
      simp
    · rw [if_neg hc]
      split
      · rfl
      · next hh => exact absurd rfl hh
  · show (1 : ℚ)/2 ≤ finalConfidence p text
    unfold finalConfidence overrideFires prelimPrediction
    rw [hs]
    by_cases hc : (1 : ℚ)/2 ≤ combinedScore p text
    · rw [if_pos hc]
      split
      · next hh => simp at hh
      · exact hc
    · rw [if_neg hc]
      split
      · exact le_trans (by norm_num) (le_max_right _ _)
      · next hh => exact absurd rfl hh
  · intro hlt
    have hc : ¬((1 : ℚ)/2 ≤ combinedScore p text) := not_le.mpr hlt
    show (6 : ℚ)/10 ≤ finalConfidence p text
    unfold finalConfidence overrideFires prelimPrediction
    rw [hs, if_neg hc]
    split
    · exact le_max_right _ _
    · next hh => exact absurd rfl hh

theorem suspicious_urls_force_scam_witness :
    (predict (1/3) "bit.ly/verifylogin".toList).is_scam = true ∧
    (1 : ℚ)/2 ≤ (predict (1/3) "bit.ly/verifylogin".toList).confidence := by
  have h : ((predict (1/3) "bit.ly/verifylogin".toList).url_analyses.any
      fun a => a.is_suspicious) = true := by decide
  exact ⟨(suspicious_urls_force_scam (1/3) _ h).1,
    (suspicious_urls_force_scam (1/3) _ h).2.1⟩

/-- Claim C7, counterexample.  With the suspicious URL
`bit.ly/verifylogin` (score 50) held fixed, raising `p_scam` from 2/5 to
1/2 moves the combined score from 0.44 to 0.5: at 2/5 the override
fires and the confidence is 0.6, while at 1/2 the preliminary verdict is
already scam and the confidence is 0.5 — the final confidence decreased
as the text signal increased. -/
theorem fusion_confidence_not_monotone :
    (2 : ℚ)/5 ≤ 1/2 ∧
    (predict (1/2) "bit.ly/verifylogin".toList).confidence <
      (predict (2/5) "bit.ly/verifylogin".toList).confidence := by
  have hm : maxUrlScore "bit.ly/verifylogin".toList = 50 := by decide
  have hs : hasSuspiciousUrls "bit.ly/verifylogin".toList = true := by decide
  have hc1 : combinedScore (1/2) "bit.ly/verifylogin".toList = 1/2 := by
    unfold combinedScore
    rw [hm]
    norm_num
  have hc2 : combinedScore (2/5) "bit.ly/verifylogin".toList = 11/25 := by
    unfold combinedScore
    rw [hm]
    norm_num
  refine ⟨by norm_num, ?_⟩
  show finalConfidence (1/2) "bit.ly/verifylogin".toList <
    finalConfidence (2/5) "bit.ly/verifylogin".toList
  unfold finalConfidence overrideFires prelimPrediction
  rw [hc1, hc2, hs]
  rw [if_pos (show (1 : ℚ)/2 ≤ 1/2 from le_refl _),
    if_neg (show ¬((1 : ℚ)/2 ≤ 11/25) by norm_num)]
  split
  · next hh => simp at hh
  · split
    · exact lt_of_lt_of_le (by norm_num) (le_max_right _ _)
    · next hh => exact absurd rfl hh

/-- Claim C7 (amended).  For a fixed message (hence fixed URL risk), the
pre-override combined score is monotone in `p_scam`; the post-override
confidence is monotone whenever no extracted URL is suspicious (the
counterexample shows it is not monotone across the override boundary
when a suspicious URL is present). -/
theorem fusion_monotone_in_text_signal (text : List Char) (p₁ p₂ : ℚ)
    (h : p₁ ≤ p₂) :
    combinedScore p₁ text ≤ combinedScore p₂ text ∧
    (hasSuspiciousUrls text = false →
      (predict p₁ text).confidence ≤ (predict p₂ text).confidence) := by
  have hmono : combinedScore p₁ text ≤ combinedScore p₂ text := by
    unfold combinedScore
    have := mul_le_mul_of_nonneg_right h (by norm_num : (0 : ℚ) ≤ 6/10)
    linarith
  refine ⟨hmono, fun hs => ?_⟩
  show finalConfidence p₁ text ≤ finalConfidence p₂ text
  unfold finalConfidence overrideFires
  simp [hs]
  exact hmono

theorem fusion_monotone_in_text_signal_witness :
    combinedScore 0 "hello".toList ≤ combinedScore 1 "hello".toList ∧
    (predict 0 "hello".toList).confidence ≤ (predict 1 "hello".toList).confidence := by
  have h := fusion_monotone_in_text_signal "hello".toList 0 1 (by norm_num)
  exact ⟨h.1, h.2 (by decide)⟩

/-- Claim C3, counterexample.  With `p_scam = 7/10` and the URL-free
message `hello`, the combined score is 0.42 < 0.5, so the verdict is
benign and "message appears safe" is appended — yet `p_scam > 0.6` also
appended the high-text-scam-probability reason: the two co-occur. -/
theorem safe_reason_cooccurs_with_text_reason :
    Reason.messageAppearsSafe ∈ (predict (7/10) "hello".toList).reasons ∧
    Reason.highTextScamProbability ∈ (predict (7/10) "hello".toList).reasons := by
  have hm : maxUrlScore "hello".toList = 0 := by decide
  have hs : hasSuspiciousUrls "hello".toList = false := by decide
  have hc : combinedScore (7/10) "hello".toList = 21/50 := by
    unfold combinedScore
    rw [hm]
    norm_num
  show Reason.messageAppearsSafe ∈ predictReasons (7/10) "hello".toList ∧
    Reason.highTextScamProbability ∈ predictReasons (7/10) "hello".toList
  unfold predictReasons finalPrediction overrideFires prelimPrediction
  rw [hc, hs]
  rw [if_pos (show (6 : ℚ)/10 < 7/10 by norm_num),
    if_neg (show ¬((1 : ℚ)/2 ≤ 21/50) by norm_num)]
  simp

/-- Claim C3 (amended).  "Message appears safe" appears in the reasons
exactly when the final verdict is benign, and it never co-occurs with
the suspicious-URLs reason (the override flips the verdict whenever
suspicious URLs exist); it can, however, co-occur with the
high-text-scam-probability reason, which is appended independently of
the verdict whenever `p_scam > 0.6`. -/
theorem safe_reason_iff_benign (p : ℚ) (text : List Char) :
    (Reason.messageAppearsSafe ∈ (predict p text).reasons ↔
      (predict p text).is_scam = false) ∧
    ¬(Reason.messageAppearsSafe ∈ (predict p text).reasons ∧
      Reason.containsSuspiciousUrls ∈ (predict p text).reasons) := by
  show (Reason.messageAppearsSafe ∈ predictReasons p text ↔
      decide (finalPrediction p text = 1) = false) ∧
    ¬(Reason.messageAppearsSafe ∈ predictReasons p text ∧
      Reason.containsSuspiciousUrls ∈ predictReasons p text)
  unfold predictReasons finalPrediction overrideFires prelimPrediction
  by_cases hc : (1 : ℚ)/2 ≤ combinedScore p text
  all_goals
    first
    | rw [if_pos hc]
    | rw [if_neg hc]
  all_goals
    cases hs : hasSuspiciousUrls text <;>
      by_cases hp : (6 : ℚ)/10 < p <;>
      first
        | (rw [if_pos hp]; simp)
        | (rw [if_neg hp]; simp)

theorem pyLower_toNat (a : Char) :
    (pyLower a).toNat =
      if 65 ≤ a.toNat ∧ a.toNat ≤ 90 then a.toNat + 32 else a.toNat := by
  unfold pyLower
  split
  · next h =>
    obtain ⟨h1, h2⟩ := h
    generalize a.toNat = n at h1 h2 ⊢
    interval_cases n <;> decide
  · rfl

theorem collapseAux_true_head (l : List Char) :
    ∀ c, (collapseAux true l).head? = some c → isPySpace c = false := by
  induction l with
  | nil =>
    intro c h
    simp [collapseAux] at h
  | cons a t ih =>
    intro c h
    cases ha : isPySpace a
    · simp [collapseAux, ha] at h
      subst h
      exact ha
    · simp [collapseAux, ha] at h
      exact ih c h

theorem collapseAux_chain (l : List Char) :
    ∀ b, List.Chain' noTwoSpaces (collapseAux b l) := by
  induction l with
  | nil =>
    intro b
    simp [collapseAux]
  | cons a t ih =>
    intro b
    cases ha : isPySpace a
    · simp only [collapseAux, ha, Bool.false_eq_true, if_false]
      rw [List.chain'_cons']
      refine ⟨?_, ih false⟩
      intro c _
      rintro ⟨rfl, -⟩
      exact absurd ha (by decide)
    · cases b
      · simp only [collapseAux, ha, if_true, Bool.false_eq_true, if_false]
        rw [List.chain'_cons']
        refine ⟨?_, ih true⟩
        intro c hc
        rintro ⟨-, rfl⟩
        have hc' : (collapseAux true t).head? = some ' ' := hc
        exact absurd (collapseAux_true_head t ' ' hc') (by decide)
      · simpa [collapseAux, ha] using ih true

theorem collapseAux_mem (l : List Char) :
    ∀ b c, c ∈ collapseAux b l → c = ' ' ∨ (c ∈ l ∧ isPySpace c = false) := by
  induction l with
  | nil =>
    intro b c h
    simp [collapseAux] at h
  | cons a t ih =>
    intro b c h
    cases ha : isPySpace a
    · simp only [collapseAux, ha, Bool.false_eq_true, if_false] at h
      rcases List.mem_cons.mp h with rfl | hm
      · exact Or.inr ⟨List.mem_cons_self _ _, ha⟩
      · rcases ih false c hm with h' | ⟨hm', hs'⟩
        · exact Or.inl h'
        · exact Or.inr ⟨List.mem_cons_of_mem _ hm', hs'⟩
    · cases b
      · simp only [collapseAux, ha, if_true, Bool.false_eq_true, if_false] at h
        rcases List.mem_cons.mp h with rfl | hm
        · exact Or.inl rfl
        · rcases ih true c hm with h' | ⟨hm', hs'⟩
          · exact Or.inl h'
          · exact Or.inr ⟨List.mem_cons_of_mem _ hm', hs'⟩
      · simp only [collapseAux, ha, if_true] at h
        rcases ih true c h with h' | ⟨hm', hs'⟩
        · exact Or.inl h'
        · exact Or.inr ⟨List.mem_cons_of_mem _ hm', hs'⟩

theorem pyStrip_prefix_drop (l : List Char) :
    pyStrip l <+: l.dropWhile isPySpace := by
  unfold pyStrip
  obtain ⟨t, ht⟩ :=
    List.dropWhile_suffix (l := (l.dropWhile isPySpace).reverse) isPySpace
  exact ⟨t.reverse, by rw [← List.reverse_append, ht, List.reverse_reverse]⟩

theorem pyStrip_mem {l : List Char} {c : Char} (h : c ∈ pyStrip l) : c ∈ l :=
  (List.dropWhile_sublist _).subset ((pyStrip_prefix_drop l).sublist.subset h)

theorem pyStrip_chain {l : List Char} (h : List.Chain' noTwoSpaces l) :
    List.Chain' noTwoSpaces (pyStrip l) := by
  have h1 : List.Chain' noTwoSpaces (l.dropWhile isPySpace) := by
    obtain ⟨t, ht⟩ := List.dropWhile_suffix (l := l) isPySpace
    rw [← ht] at h
    exact h.right_of_append
  obtain ⟨t, ht⟩ := pyStrip_prefix_drop l
  rw [← ht] at h1
  exact h1.left_of_append

theorem head?_dropWhile_false (p : Char → Bool) (l : List Char) (c : Char)
    (h : (l.dropWhile p).head? = some c) : p c = false := by
  have hm := List.head?_dropWhile_not p l
  rw [h] at hm
  exact hm

theorem pyStrip_head_not_space (l : List Char) :
    (pyStrip l).head? ≠ some ' ' := by
  intro h
  obtain ⟨t, ht⟩ := pyStrip_prefix_drop l
  cases hps : pyStrip l with
  | nil =>
    rw [hps] at h
    simp at h
  | cons x w =>
    rw [hps] at h
    have hx : x = ' ' := by simpa using h
    rw [hps] at ht
    have hh : (l.dropWhile isPySpace).head? = some x := by
      rw [← ht]
      simp
    have hfalse := head?_dropWhile_false isPySpace l x hh
    rw [hx] at hfalse
    exact absurd hfalse (by decide)

theorem pyStrip_last_not_space (l : List Char) :
    (pyStrip l).getLast? ≠ some ' ' := by
  intro h
  unfold pyStrip at h
  rw [List.getLast?_reverse] at h
  have hfalse :=
    head?_dropWhile_false isPySpace ((l.dropWhile isPySpace).reverse) ' ' h
  exact absurd hfalse (by decide)

theorem preprocess_text_chars (s : List Char) :
    ∀ c ∈ preprocess_text s, isNormalizedChar c = true := by
  intro c hc
  unfold preprocess_text at hc
  have hc1 := pyStrip_mem hc
  unfold collapseSpaces at hc1
  rcases collapseAux_mem _ false c hc1 with rfl | ⟨hmem, hsp⟩
  · decide
  · rcases List.mem_map.mp hmem with ⟨b, hb, hfb⟩
    rcases List.mem_map.mp hb with ⟨a, -, hba⟩
    by_cases hw : (isWordChar b || isPySpace b) = true
    · have hbc : b = c := by rw [if_pos hw] at hfb; exact hfb
      subst hbc
      have hwc : isWordChar b = true := by simpa [hsp] using hw
      have htn := pyLower_toNat a
      rw [hba] at htn
      unfold isWordChar at hwc
      have hwn := of_decide_eq_true hwc
      unfold isNormalizedChar
      apply decide_eq_true
      split at htn <;> omega
    · rw [if_neg hw] at hfb
      rw [← hfb] at hsp
      exact absurd hsp (by decide)

/-- Claim C2, counterexample.  Python's `\w` includes the underscore, so
`preprocess_text` preserves it: the normalized form of `"_"` is `"_"`,
which contains a character that is neither a lowercase letter, a digit,
nor a space. -/
theorem underscore_survives_normalization :
    preprocess_text "_".toList = "_".toList ∧
    (preprocess_text "_".toList).all isClaimNormalizedChar = false := by
  decide

/-- Claim C2 (amended).  For every string, the normalized text consists
only of lowercase ASCII letters, digits, underscores, and spaces (the
claim's character set plus the underscore, which `\w` keeps), with no
leading or trailing space and no two consecutive spaces. -/
theorem preprocess_text_normalized (s : List Char) :
    (preprocess_text s).all isNormalizedChar = true ∧
    (preprocess_text s).head? ≠ some ' ' ∧
    (preprocess_text s).getLast? ≠ some ' ' ∧
    List.Chain' noTwoSpaces (preprocess_text s) := by
  refine ⟨?_, ?_, ?_, ?_⟩
  · rw [List.all_eq_true]
    intro c hcm
    exact preprocess_text_chars s c hcm
  · exact pyStrip_head_not_space _
  · exact pyStrip_last_not_space _
  · exact pyStrip_chain (collapseAux_chain _ false)

theorem preprocess_text_normalized_witness :
    (preprocess_text "Hello,   World!!  ".toList).all isNormalizedChar = true ∧
    (preprocess_text "Hello,   World!!  ".toList).head? ≠ some ' ' :=
  ⟨(preprocess_text_normalized _).1, (preprocess_text_normalized _).2.1⟩

theorem safe_reason_iff_benign_witness :
    (Reason.messageAppearsSafe ∈ (predict 0 "hello".toList).reasons ↔
      (predict 0 "hello".toList).is_scam = false) ∧
    ¬(Reason.messageAppearsSafe ∈ (predict 0 "hello".toList).reasons ∧
      Reason.containsSuspiciousUrls ∈ (predict 0 "hello".toList).reasons) :=
  safe_reason_iff_benign 0 "hello".toList

end ScamDetector
